import Mathlib

/-!
Verification of the RFS (Recruitment Fit Score) scoring pipeline.

This file gives a shallow embedding of the scoring logic of `app.py` and of
the offline join utility `join_rfs.py`, and proves the specified properties
about it.  Conventions of the embedding:

* pandas cells are `Option String` (`none` models `NaN`, i.e. a missing cell);
* numeric scores are rationals (`ℚ`); Python floats are modelled as exact
  rational arithmetic, and `Series.round(2)` as rounding `q * 100` to the
  nearest integer (tie behaviour is immaterial to every property below);
* a parsed timestamp (the result of `pd.to_datetime(..., errors="coerce")`)
  is an `Option Int`, with `none` standing for `NaT` (an unparseable value);
* `hashlib.sha256(...).hexdigest()` is implemented in full (FIPS 180-4) over
  the UTF-8 bytes of the input string.
-/

namespace RFS

/-! ### UTF-8 encoding of a string (Python `str.encode("utf-8")`) -/

/-- UTF-8 byte sequence of a single code point. -/
def utf8Char (c : Char) : List Nat :=
  let n := c.toNat
  if n < 0x80 then [n]
  else if n < 0x800 then [0xC0 + n / 64, 0x80 + n % 64]
  else if n < 0x10000 then [0xE0 + n / 4096, 0x80 + (n / 64) % 64, 0x80 + n % 64]
  else [0xF0 + n / 262144, 0x80 + (n / 4096) % 64, 0x80 + (n / 64) % 64, 0x80 + n % 64]

/-- UTF-8 bytes of a string. -/
def utf8Bytes (s : String) : List Nat :=
  (s.data.map utf8Char).flatten

/-! ### SHA-256 (the `hashlib.sha256` used by `hash_id` / `pid_from_email`) -/

/-- Truncate to a 32-bit word. -/
def mask32 (x : Nat) : Nat := x % 4294967296

/-- Addition modulo 2^32. -/
def add32 (a b : Nat) : Nat := mask32 (a + b)

/-- Rotate a 32-bit word right by n bit positions. -/
def rotr32 (x n : Nat) : Nat := mask32 ((x >>> n) ||| (x <<< (32 - n)))

/-- SHA-256 big sigma-0. -/
def bSig0 (x : Nat) : Nat := (rotr32 x 2) ^^^ (rotr32 x 13) ^^^ (rotr32 x 22)

/-- SHA-256 big sigma-1. -/
def bSig1 (x : Nat) : Nat := (rotr32 x 6) ^^^ (rotr32 x 11) ^^^ (rotr32 x 25)

/-- SHA-256 small sigma-0. -/
def sSig0 (x : Nat) : Nat := (rotr32 x 7) ^^^ (rotr32 x 18) ^^^ (x >>> 3)

/-- SHA-256 small sigma-1. -/
def sSig1 (x : Nat) : Nat := (rotr32 x 17) ^^^ (rotr32 x 19) ^^^ (x >>> 10)

/-- SHA-256 choice function. -/
def ch32 (e f g : Nat) : Nat := (e &&& f) ^^^ ((4294967295 ^^^ e) &&& g)

/-- SHA-256 majority function. -/
def maj32 (a b c : Nat) : Nat := (a &&& b) ^^^ (a &&& c) ^^^ (b &&& c)

/-- SHA-256 round constants (FIPS 180-4 section 4.2.2), written in
decimal. -/
def sha256K : List Nat :=
  [1116352408, 1899447441, 3049323471, 3921009573, 961987163,
   1508970993, 2453635748, 2870763221, 3624381080, 310598401,
   607225278, 1426881987, 1925078388, 2162078206, 2614888103,
   3248222580, 3835390401, 4022224774, 264347078, 604807628,
   770255983, 1249150122, 1555081692, 1996064986, 2554220882,
   2821834349, 2952996808, 3210313671, 3336571891, 3584528711,
   113926993, 338241895, 666307205, 773529912, 1294757372,
   1396182291, 1695183700, 1986661051, 2177026350, 2456956037,
   2730485921, 2820302411, 3259730800, 3345764771, 3516065817,
   3600352804, 4094571909, 275423344, 430227734, 506948616,
   659060556, 883997877, 958139571, 1322822218, 1537002063,
   1747873779, 1955562222, 2024104815, 2227730452, 2361852424,
   2428436474, 2756734187, 3204031479, 3329325298]

/-- SHA-256 message padding: append 0x80, zero bytes, then the 64-bit
big-endian message bit length, reaching a multiple of 64 bytes. -/
def sha256Pad (msg : List Nat) : List Nat :=
  let len := msg.length
  let bitLen := len * 8
  let zeros := (64 + 56 - ((len + 1) % 64)) % 64
  msg ++ [0x80] ++ List.replicate zeros 0 ++
    [(bitLen >>> 56) &&& 255, (bitLen >>> 48) &&& 255, (bitLen >>> 40) &&& 255,
     (bitLen >>> 32) &&& 255, (bitLen >>> 24) &&& 255, (bitLen >>> 16) &&& 255,
     (bitLen >>> 8) &&& 255, bitLen &&& 255]

/-- Split a byte list into chunks of 64 bytes.  The first argument is
recursion fuel (any value at least the list length is enough); structural
recursion on it keeps the definition kernel-computable. -/
def chunks64F : Nat → List Nat → List (List Nat)
  | _, [] => []
  | 0, _ :: _ => []
  | fuel + 1, b :: rest => ((b :: rest).take 64) :: chunks64F fuel ((b :: rest).drop 64)

/-- Split a byte list into chunks of 64 bytes. -/
def chunks64 (l : List Nat) : List (List Nat) := chunks64F l.length l

/-- Combine four bytes into one big-endian 32-bit word. -/
def bytesToWords : List Nat → List Nat
  | b0 :: b1 :: b2 :: b3 :: rest => (b0 * 16777216 + b1 * 65536 + b2 * 256 + b3) :: bytesToWords rest
  | _ => []

/-- Message-schedule extension of the 16 chunk words to 64 words. -/
def sha256Schedule (ws16 : Array Nat) : Array Nat :=
  (List.range 48).foldl
    (fun ws i =>
      let j := i + 16
      ws.push (add32 (add32 (sSig1 (ws.getD (j - 2) 0)) (ws.getD (j - 7) 0))
                     (add32 (sSig0 (ws.getD (j - 15) 0)) (ws.getD (j - 16) 0))))
    ws16

/-- Working state of the SHA-256 compression function. -/
structure Hash8 where
  a : Nat
  b : Nat
  c : Nat
  d : Nat
  e : Nat
  f : Nat
  g : Nat
  h : Nat
deriving Repr, DecidableEq

/-- One round of the SHA-256 compression function. -/
def sha256Round (ws : Array Nat) (st : Hash8) (i : Nat) : Hash8 :=
  let t1 := add32 (add32 (add32 st.h (bSig1 st.e)) (add32 (ch32 st.e st.f st.g) (sha256K.getD i 0)))
                  (ws.getD i 0)
  let t2 := add32 (bSig0 st.a) (maj32 st.a st.b st.c)
  { a := add32 t1 t2, b := st.a, c := st.b, d := st.c,
    e := add32 st.d t1, f := st.e, g := st.f, h := st.g }

/-- Process one 64-byte chunk, updating the hash state. -/
def sha256Chunk (st : Hash8) (chunk : List Nat) : Hash8 :=
  let ws := sha256Schedule (List.toArray (bytesToWords chunk))
  let fin := (List.range 64).foldl (sha256Round ws) st
  { a := add32 st.a fin.a, b := add32 st.b fin.b, c := add32 st.c fin.c,
    d := add32 st.d fin.d, e := add32 st.e fin.e, f := add32 st.f fin.f,
    g := add32 st.g fin.g, h := add32 st.h fin.h }

/-- Initial SHA-256 hash state. -/
def sha256Init : Hash8 :=
  { a := 1779033703, b := 3144134277, c := 1013904242, d := 2773480762,
    e := 1359893119, f := 2600822924, g := 528734635, h := 1541459225 }

/-- SHA-256 digest state of a byte message. -/
def sha256Words (msg : List Nat) : Hash8 :=
  (chunks64 (sha256Pad msg)).foldl sha256Chunk sha256Init

/-- Hexadecimal digit character (lowercase, as Python's `hexdigest`). -/
def hexDigit (n : Nat) : Char :=
  if n < 10 then Char.ofNat (48 + n) else Char.ofNat (87 + n)

/-- Eight lowercase hex characters of one 32-bit word, big-endian. -/
def toHex8 (w : Nat) : List Char :=
  [hexDigit ((w >>> 28) &&& 15), hexDigit ((w >>> 24) &&& 15),
   hexDigit ((w >>> 20) &&& 15), hexDigit ((w >>> 16) &&& 15),
   hexDigit ((w >>> 12) &&& 15), hexDigit ((w >>> 8) &&& 15),
   hexDigit ((w >>> 4) &&& 15), hexDigit (w &&& 15)]

/-- The 64 hex characters of `hashlib.sha256(msg).hexdigest()`. -/
def sha256hex (msg : List Nat) : List Char :=
  let st := sha256Words msg
  toHex8 st.a ++ toHex8 st.b ++ toHex8 st.c ++ toHex8 st.d ++
  toHex8 st.e ++ toHex8 st.f ++ toHex8 st.g ++ toHex8 st.h

/-! ### Small string utilities (Python `in`, `\b\d+\b`, `str.split()`) -/

/-- Test whether `pat` occurs as a contiguous infix of a character list.
Models the Python substring operator `pat in hay`. -/
def isInfixChars (pat : List Char) : List Char → Bool
  | [] => pat.isEmpty
  | c :: rest => pat.isPrefixOf (c :: rest) || isInfixChars pat rest

/-- Python `pat in hay` on strings. -/
def containsStr (hay pat : String) : Bool := isInfixChars pat.data hay.data

/-- Python `str.strip()`: drop leading and trailing whitespace.  (A
list-based equivalent of `String.trim`, kept kernel-computable.) -/
def trimStr (s : String) : String :=
  ⟨(((s.data.dropWhile Char.isWhitespace).reverse.dropWhile Char.isWhitespace).reverse : List Char)⟩

/-- Python `str.lower()` (ASCII range, which covers every keyword and
label the program compares against). -/
def toLowerStr (s : String) : String := ⟨s.data.map Char.toLower⟩

/-- Python `str.startswith(p)`. -/
def startsWithStr (s p : String) : Bool := p.data.isPrefixOf s.data

/-- Python regex word character (`\w`), ASCII range. -/
def isWordChar (c : Char) : Bool := c.isAlphanum || c = '_'

/-- Length bound for `List.dropWhile`, needed for termination below. -/
theorem dropWhile_length_le (p : Char → Bool) :
    ∀ l : List Char, (l.dropWhile p).length ≤ l.length := by
  intro l
  induction l with
  | nil => simp [List.dropWhile]
  | cons c rest ih =>
    simp only [List.dropWhile]
    split
    · exact Nat.le_trans ih (Nat.le_succ _)
    · exact Nat.le_refl _

/-- Scanner for `re.search(r"\b\d+\b", t)`: looks for a maximal digit run
delimited by word boundaries.  The `Bool` argument records whether the
previous character was a word character; the `Nat` is recursion fuel (any
value at least the list length is enough). -/
def hasIntAux : Nat → Bool → List Char → Bool
  | _, _, [] => false
  | 0, _, _ :: _ => false
  | fuel + 1, prevW, c :: rest =>
    if c.isDigit && !prevW then
      match rest.dropWhile Char.isDigit with
      | [] => true
      | d :: tl => if !isWordChar d then true else hasIntAux fuel true (d :: tl)
    else hasIntAux fuel (isWordChar c) rest

/-- Python `bool(re.search(r"\b\d+\b", t))`. -/
def hasIntToken (t : String) : Bool := hasIntAux t.data.length false t.data

/-- Maximal non-whitespace runs of a character list, as Python `t.split()`.
The `Nat` is recursion fuel (any value at least the list length is enough).
-/
def tokensOfF : Nat → List Char → List (List Char)
  | 0, _ => []
  | fuel + 1, l =>
    match l.dropWhile Char.isWhitespace with
    | [] => []
    | c :: rest =>
      (c :: rest.takeWhile fun ch => !ch.isWhitespace) ::
        tokensOfF fuel (rest.dropWhile fun ch => !ch.isWhitespace)

/-- Maximal non-whitespace runs of a character list, as Python `t.split()`. -/
def tokensOf (l : List Char) : List (List Char) := tokensOfF l.length l

/-- Number of words of a string, as Python `len(t.split())`: split on
whitespace runs, ignoring empty tokens. -/
def wordCount (t : String) : Nat := (tokensOf t.data).length

/-- Join character-list tokens with single spaces. -/
def joinSpace : List (List Char) → List Char
  | [] => []
  | [t] => t
  | t :: u :: rest => t ++ ' ' :: joinSpace (u :: rest)

/-- Worker for Python `s.replace(pat, rep)`; the `Nat` is recursion fuel
(any value at least the list length is enough). -/
def replaceListF (pat rep : List Char) : Nat → List Char → List Char
  | _, [] => []
  | 0, l => l
  | fuel + 1, c :: rest =>
    if pat.isPrefixOf (c :: rest) ∧ pat ≠ [] then
      rep ++ replaceListF pat rep fuel ((c :: rest).drop pat.length)
    else c :: replaceListF pat rep fuel rest

/-- Python `s.replace(pat, rep)` on strings (non-empty pattern): replace
non-overlapping occurrences left to right. -/
def replaceStr (s pat rep : String) : String :=
  ⟨replaceListF pat.data rep.data s.data.length s.data⟩

/-! ### `app.py` helpers (lines 251-328) and the inline parsers (420-447) -/

/-- Source `normalize_email` (app.py:251): `""` for a missing cell, else
`str(x).strip().lower()`. -/
def normalize_email (x : Option String) : String :=
  match x with
  | none => ""
  | some s => toLowerStr (trimStr s)

/-- Source `hash_id` (app.py:256): first 16 characters of
`sha256(SALT + value).hexdigest()`.  The process-wide secret `SALT` is made
an explicit parameter. -/
def hash_id (salt value : String) : String :=
  ⟨(sha256hex (utf8Bytes (salt ++ value))).take 16⟩

/-- Source `org_to_sector` (app.py:260): ordered keyword rules over the
lowercased organisation text; missing / blank input is unclassified. -/
def org_to_sector (org_text : Option String) : String :=
  match org_text with
  | none => "Other/Unclassified"
  | some s =>
    if trimStr s = "" then "Other/Unclassified"
    else
      let x := toLowerStr s
      if ["universit", "school", "educat"].any fun k => containsStr x k then "Education"
      else if ["ngo", "foundation", "association", "civil", "non profit", "non-profit"].any
          fun k => containsStr x k then "NGO/CSO"
      else if ["ministry", "gov", "municipal", "department of", "bureau"].any
          fun k => containsStr x k then "Government"
      else if ["united nations", "world bank", "fao", "ifad", "ifpri", "undp", "unesco"].any
          fun k => containsStr x k then "Multilateral"
      else if ["ltd", "company", "bv", "inc", "plc", "gmbh", "sarl"].any
          fun k => containsStr x k then "Private"
      else if ["farmer", "coop", "co-op", "cooperative"].any
          fun k => containsStr x k then "Farmer Org"
      else if ["consult"].any fun k => containsStr x k then "Consultancy"
      else if ["bank", "finance", "microfinance"].any
          fun k => containsStr x k then "Finance"
      else "Other/Unclassified"

/-- Source `rubric_heuristic_score` (app.py:282).  The caller always passes
`safe_text(x)`, a string; the `isinstance` guard for non-string cells is
subsumed by the `Option` at the call boundary. -/
def rubric_heuristic_score (text : String) (min_words : Nat) : Nat × Nat × Nat :=
  if trimStr text = "" then (0, 0, 0)
  else if wordCount (trimStr text) < min_words then (0, 0, 0)
  else
    (if wordCount (trimStr text) ≥ 200
        ∨ (["data", "dataset", "dashboard", "faostat", "survey"].any
            fun w => containsStr (toLowerStr (trimStr text)) w) then 10 else 5,
     if hasIntToken (trimStr text) then 10 else 5,
     if ["food system", "seed", "agric", "market", "value chain"].any
        fun w => containsStr (toLowerStr (trimStr text)) w then 10 else 5)

/-- Source `label_band` (app.py:299): the four-way decision ladder. -/
def label_band (val admission_thr priority_thr : ℚ) (sector : String) (equity_reserve : Bool)
    (equity_range : ℚ × ℚ) : String :=
  if val ≥ priority_thr then "Priority"
  else if val ≥ admission_thr then "Admit"
  else if equity_reserve ∧ sector = "Farmer Org" ∧ equity_range.1 ≤ val ∧ val ≤ equity_range.2 then
    "Reserve (Equity)"
  else "Reserve"

/-- Source `yes_no_points` (app.py:322): zero for a missing cell or a text
starting with a negative token, else the full cap. -/
def yes_no_points (x : Option String) (cap : ℚ) : ℚ :=
  match x with
  | none => 0
  | some s =>
    let text := toLowerStr (trimStr s)
    if ["no", "none", "n/a", "0"].any fun p => startsWithStr text p then 0 else cap

/-- Source `safe_text` (app.py:446): missing becomes the empty string. -/
def safe_text (x : Option String) : String :=
  match x with
  | none => ""
  | some s => s

/-! ### Configuration presets (app.py:204-243) -/

/-- A scoring configuration, as one of the two `PRESETS` dictionaries. -/
structure Preset where
  pname : String
  description : String
  thresh_admission : ℚ
  thresh_priority : ℚ
  equity_lower : ℚ
  equity_upper : ℚ
  w_motivation : ℚ
  w_sector : ℚ
  w_referee : ℚ
  w_function : ℚ
  w_time : ℚ
  w_lang : ℚ
  w_alumni : ℚ
  min_motivation_words : Nat
  sector_uplift : List (String × ℚ)
deriving DecidableEq

/-- The `finance_optimized` preset (app.py:205-223). -/
def finance_optimized : Preset :=
  { pname := "Finance-Optimized (v3.1)"
    description := "RECALIBRATED: Prioritizes Function (r=0.10) and Referee (r=0.08) over noisy signals."
    thresh_admission := 50, thresh_priority := 65
    equity_lower := 40, equity_upper := 49
    w_motivation := 15, w_sector := 5, w_referee := 28, w_function := 25
    w_time := 10, w_lang := 15, w_alumni := 5
    min_motivation_words := 30
    sector_uplift := [("Finance", 8), ("Private", 5), ("Government", 5), ("NGO/CSO", 5),
                      ("Farmer Org", 2), ("Other/Unclassified", 0)] }

/-- The `balanced` preset (app.py:224-242). -/
def balanced : Preset :=
  { pname := "Balanced (General Cohort)"
    description := "Standard weighting with optimized word count rubrics."
    thresh_admission := 55, thresh_priority := 70
    equity_lower := 45, equity_upper := 54
    w_motivation := 25, w_sector := 10, w_referee := 28, w_function := 15
    w_time := 10, w_lang := 20, w_alumni := 5
    min_motivation_words := 50
    sector_uplift := [("NGO/CSO", 10), ("Government", 8), ("Education", 8), ("Private", 5),
                      ("Farmer Org", 5), ("Other/Unclassified", 0)] }

/-- Python `dict.get(k, 0)` on the sector-uplift table. -/
def lookupQ (tbl : List (String × ℚ)) (k : String) : ℚ :=
  ((tbl.find? fun p => p.1 == k).map Prod.snd).getD 0

/-! ### The inline per-column parsers (app.py:420-447, 482-487) -/

/-- Source `language_points` (app.py:420): banded fractions of `w_lang`. -/
def language_points (p : Preset) (x : Option String) : ℚ :=
  match x with
  | none => 0
  | some s =>
    let t := toLowerStr (trimStr s)
    if ["fluent", "native", "advanced", "excellent"].any fun k => containsStr t k then
      p.w_lang
    else if ["working", "intermediate", "good", "professional"].any fun k => containsStr t k then
      p.w_lang * (6 / 10)
    else if ["basic", "limited", "beginner"].any fun k => containsStr t k then
      p.w_lang * (3 / 10)
    else 0

/-- Source `time_points` (app.py:432): fixed band values 10 / 6 / 3 / 0. -/
def time_points (x : Option String) : ℚ :=
  match x with
  | none => 0
  | some s =>
    let t := replaceStr (replaceStr (toLowerStr (trimStr s)) "–" "-") "—" "-"
    if [">=3", "3+", "3 h", "3h", "more than 3", "at least 3"].any fun k => containsStr t k then 10
    else if ["2-3", "2 to 3", "2.5", "2 h", "2h"].any fun k => containsStr t k then 6
    else if ["1-2", "1 to 2", "1.5", "1 h", "1h"].any fun k => containsStr t k then 3
    else if ["<1", "less than 1", "0.5", "30 min"].any fun k => containsStr t k then 0
    else 0

/-- Source `function_points` (app.py:482): full weight on a direct keyword
match, 0.4 of the weight otherwise, 0 for an empty value. -/
def function_points (p : Preset) (x : Option String) : ℚ :=
  let xl := toLowerStr (safe_text x)
  if xl = "" then 0
  else if ["specialist", "officer", "advisor", "director", "manager", "analyst",
      "lecturer"].any fun k => containsStr xl k then
    p.w_function
  else p.w_function * (4 / 10)

/-- Motivation score (app.py:476-477): the rescaled rubric total
`(sum(subscores) / 30) * w_motivation`.  The motivation column is a
required mapping, so it is always present. -/
def motivationPts (p : Preset) (x : Option String) : ℚ :=
  let subs := rubric_heuristic_score (safe_text x) p.min_motivation_words
  (((subs.1 : ℚ) + subs.2.1 + subs.2.2) / 30) * p.w_motivation

/-! ### The working frame and the scoring pass (app.py:449-523) -/

/-- One row of the uploaded table, after column mapping.  Each field is the
raw cell of the mapped column (`none` models both `NaN` and an unmapped
optional column's absence — see `ColMap`).  `ts` is the parsed submission
timestamp `pd.to_datetime(work[ts_col], errors="coerce")`, with `none` for
`NaT` (an unparseable value). -/
structure Row where
  email : Option String
  motivation : Option String
  func : Option String
  org : Option String
  referee : Option String
  lang : Option String
  time : Option String
  alumni : Option String
  ts : Option Int
deriving DecidableEq, Repr

/-- Which optional columns were resolved by the mapping UI (the email,
motivation and function columns are required and always mapped), and
whether a timestamp-like column was detected (app.py:462). -/
structure ColMap where
  orgMapped : Bool
  refMapped : Bool
  langMapped : Bool
  timeMapped : Bool
  alumniMapped : Bool
  hasTsCol : Bool
deriving DecidableEq, Repr

/-- One row of the output frame `work`: `raw` is the full original row kept
by `df.copy()`, followed by every column the scoring pass adds. -/
structure ScoredRow where
  raw : Row
  pid : String
  emailNorm : String
  motivationPts : ℚ
  functionPts : ℚ
  refereePts : ℚ
  sector : String
  sectorPts : ℚ
  languagePts : ℚ
  timePts : ℚ
  rfs : ℚ
  decision : String
deriving DecidableEq, Repr

/-- Rounding of `pandas.Series.round(2)`, on exact rationals. -/
def round2 (q : ℚ) : ℚ := ((round (q * 100) : ℤ) : ℚ) / 100

/-- Scores of one surviving row (app.py:474-517).  The app computes `PID`
before deduplication; since deduplication does not alter any cell, computing
it here per kept row yields the same frame. -/
def scoreRow (salt : String) (p : Preset) (m : ColMap) (r : Row) : ScoredRow :=
  let en := normalize_email r.email
  let mot := motivationPts p r.motivation
  let fn := function_points p r.func
  let ref := if m.refMapped then yes_no_points r.referee p.w_referee else 0
  let sec := if m.orgMapped then org_to_sector r.org else "Other/Unclassified"
  let secP := lookupQ p.sector_uplift sec
  let lang := if m.langMapped then language_points p r.lang else 0
  let tim := if m.timeMapped then time_points r.time else 0
  let rfs := round2 (mot + fn + ref + secP + lang + tim)
  { raw := r, pid := hash_id salt en, emailNorm := en
    motivationPts := mot, functionPts := fn, refereePts := ref
    sector := sec, sectorPts := secP, languagePts := lang, timePts := tim
    rfs := rfs
    decision := label_band rfs p.thresh_admission p.thresh_priority sec true
      (p.equity_lower, p.equity_upper) }

/-! ### Deduplication (app.py:461-472) -/

/-- Sort key comparison of `sort_values("_ts")`: ascending on parsed
timestamps, with `NaT` placed after every parsed value (pandas default
`na_position="last"`). -/
def tsLe : Option Int → Option Int → Bool
  | none, none => true
  | none, some _ => false
  | some _, none => true
  | some a, some b => a ≤ b

/-- Row ordering used by the timestamp sort. -/
def rowOrd (a b : Row) : Prop := tsLe a.ts b.ts = true

instance : DecidableRel rowOrd := fun a b => by unfold rowOrd; infer_instance

/-- Keep the first occurrence of every key, skipping keys in `seen`
(helper for `drop_duplicates`). -/
def keepFirstBy {α β : Type} [DecidableEq β] (key : α → β) : List β → List α → List α
  | _, [] => []
  | seen, a :: rest =>
    if key a ∈ seen then keepFirstBy key seen rest
    else a :: keepFirstBy key (key a :: seen) rest

/-- `DataFrame.drop_duplicates(col, keep="last")`: keep the last occurrence
of every key, preserving the order of the kept rows. -/
def dropDupLastBy {α β : Type} [DecidableEq β] (key : α → β) (l : List α) : List α :=
  (keepFirstBy key [] l.reverse).reverse

/-- Deduplication key: the `Email_Norm` column. -/
def emailKey (r : Row) : String := normalize_email r.email

/-- The dedup step (app.py:461-472): with a detected timestamp column, sort
ascending by parsed timestamp first (the embedding uses a stable insertion
sort; `sort_values`' quicksort only differs on the order of ties), then
drop duplicate `Email_Norm` keys keeping the last. -/
def dedupe (m : ColMap) (l : List Row) : List Row :=
  if m.hasTsCol then dropDupLastBy emailKey (List.insertionSort rowOrd l)
  else dropDupLastBy emailKey l

/-- The scoring run on the whole uploaded table (app.py:449-517): drop rows
whose normalized email is empty (fatal if none remain), deduplicate, score. -/
def scoreTable (salt : String) (p : Preset) (m : ColMap) (rows : List Row) :
    Except String (List ScoredRow) :=
  let kept := rows.filter fun r => !(normalize_email r.email).data.isEmpty
  if kept.isEmpty then
    Except.error "No valid email values found after normalization. Check your Email column mapping."
  else
    Except.ok ((dedupe m kept).map (scoreRow salt p m))

/-! ### Output schema (app.py:378-380, 449-523) -/

/-- Column-header cleaning `re.sub(r"\s+", " ", str(c)).strip()`. -/
def cleanColName (c : String) : String := ⟨joinSpace (tokensOf c.data)⟩

/-- Score columns `pts_cols` (app.py:505). -/
def pts_cols : List String :=
  ["MotivationPts", "FunctionPts", "RefereePts", "SectorPts", "LanguagePts", "TimePts"]

/-- Columns of the output frame `work`, in frame order: the cleaned and
de-duplicated input headers, `Email_Norm` appended, `PID` inserted in front,
then every column the scoring pass adds (app.py:449-517).  This is the
schema of the downloadable CSV `work.to_csv(index=False)` (app.py:522). -/
def outputColumns (cols : List String) : List String :=
  "PID" :: (keepFirstBy id [] (cols.map cleanColName) ++
    ["Email_Norm", "MotivationPts", "FunctionPts", "RefereePts", "Sector", "SectorPts",
     "LanguagePts", "TimePts", "RFS", "predicted Decision"])

/-- Columns of the on-screen table (app.py:520). -/
def displayedColumns : List String :=
  ["PID", "Email_Norm", "Sector", "RFS", "predicted Decision"] ++ pts_cols

/-! ### The join utility (join_rfs.py) -/

/-- Source `norm_email` (join_rfs.py:14): identical to the app's
`normalize_email`. -/
def norm_email (x : Option String) : String :=
  match x with
  | none => ""
  | some s => toLowerStr (trimStr s)

/-- Source `pid_from_email` (join_rfs.py:18): first 16 hex characters of
`sha256(SALT + norm_email(email))`. -/
def pid_from_email (salt : String) (email : Option String) : String :=
  ⟨(sha256hex (utf8Bytes (salt ++ norm_email email))).take 16⟩

/-- Required columns of the scored table (join_rfs.py:53). -/
def keep_cols : List String := ["PID", "RFS", "Decision"]

/-- The `missing` check of join_rfs.py:54. -/
def missingScoredCols (scoredCols : List String) : List String :=
  keep_cols.filter fun c => ¬ (c ∈ scoredCols)

/-- The fatal gate of join_rfs.py:54-56: `SystemExit` when the scored table
lacks a required column; only past this gate does the script merge on `PID`
and sort by `(Decision, RFS descending)`. -/
def joinGate (scoredCols : List String) : Except String Unit :=
  if missingScoredCols scoredCols ≠ [] then
    Except.error "rfs_scored.csv is missing columns"
  else Except.ok ()

/-! ### Specification-side definitions (for the refinement claims) -/

/-- Modelled from the spec's wording of the decision ladder (section 4.4):
priority threshold first, then admission threshold, then the equity carve-out
for the singled-out equity-eligible sector, else Reserve. -/
def specDecision (val admission priority : ℚ) (sector : String) (enabled : Bool)
    (eligible : String) (lo hi : ℚ) : String :=
  if val ≥ priority then "Priority"
  else if val ≥ admission then "Admit"
  else if enabled ∧ sector = eligible ∧ lo ≤ val ∧ val ≤ hi then "Reserve (Equity)"
  else "Reserve"

/-- The ordered keyword rule table of the sector classifier, as the spec
describes it (section 4.2): category tested in this fixed sequence, first
substring match wins. -/
def sectorRules : List (String × List String) :=
  [("Education", ["universit", "school", "educat"]),
   ("NGO/CSO", ["ngo", "foundation", "association", "civil", "non profit", "non-profit"]),
   ("Government", ["ministry", "gov", "municipal", "department of", "bureau"]),
   ("Multilateral", ["united nations", "world bank", "fao", "ifad", "ifpri", "undp", "unesco"]),
   ("Private", ["ltd", "company", "bv", "inc", "plc", "gmbh", "sarl"]),
   ("Farmer Org", ["farmer", "coop", "co-op", "cooperative"]),
   ("Consultancy", ["consult"]),
   ("Finance", ["bank", "finance", "microfinance"])]

/-- First category of the ordered rule list whose keyword set matches. -/
def firstMatchSector (x : String) : List (String × List String) → String
  | [] => "Other/Unclassified"
  | (cat, kws) :: rest =>
    if kws.any (fun k => containsStr x k) then cat else firstMatchSector x rest

/-- Modelled from the spec's wording of the sector classifier (section 4.2):
lowercase the input, classify empty or missing input as unclassified, else
return the first matching category of the ordered rule table. -/
def specClassify (org : Option String) : String :=
  match org with
  | none => "Other/Unclassified"
  | some s =>
    if trimStr s = "" then "Other/Unclassified" else firstMatchSector (toLowerStr s) sectorRules

/-- The closed sector taxonomy of the data model. -/
def sectorTaxonomy : List String :=
  ["Education", "NGO/CSO", "Government", "Multilateral", "Private", "Farmer Org",
   "Consultancy", "Finance", "Other/Unclassified"]

/-- Largest point value of a sector-uplift table (with default 0). -/
def maxUplift (tbl : List (String × ℚ)) : ℚ := (tbl.map Prod.snd).foldr max 0

/-! ### Concrete example inputs -/

/-- A motivation text of exactly 30 one-letter words. -/
def exMotText : String :=
  "a a a a a a a a a a a a a a a a a a a a a a a a a a a a a a"

/-- A column mapping with every optional column resolved and no timestamp
column detected. -/
def allMapped : ColMap :=
  { orgMapped := true, refMapped := true, langMapped := true, timeMapped := true,
    alumniMapped := true, hasTsCol := false }

/-- The mapping `allMapped` with a detected timestamp column. -/
def allMappedTs : ColMap :=
  { orgMapped := true, refMapped := true, langMapped := true, timeMapped := true,
    alumniMapped := true, hasTsCol := true }

/-- A concrete applicant row with a raw (un-normalized) email. -/
def c1Row : Row :=
  { email := some " A@B.com ", motivation := some "I want to join", func := some "Officer",
    org := some "Ministry of Agriculture", referee := some "yes", lang := some "fluent",
    time := some "2-3h", alumni := some "no", ts := none }

/-- A concrete applicant row classified into the Finance sector. -/
def c4Row : Row :=
  { email := some "f@x.org", motivation := some "hello", func := some "Analyst",
    org := some "XYZ Bank", referee := some "yes", lang := some "fluent",
    time := some "1-2h", alumni := none, ts := none }

/-- Duplicate-pair input for the deduplicator: same email, first submission
with an unparseable timestamp (`NaT`), second with a parsed one. -/
def c6RowA : Row :=
  { email := some "a@b.com", motivation := some "first", func := none, org := none,
    referee := none, lang := none, time := none, alumni := none, ts := none }

/-- The second submission of `c6RowA`'s applicant, with a parsed timestamp. -/
def c6RowB : Row :=
  { email := some "a@b.com", motivation := some "second", func := none, org := none,
    referee := none, lang := none, time := none, alumni := none, ts := some 18262 }

/-- The two-row duplicate table. -/
def c6Rows : List Row := [c6RowA, c6RowB]

/-- Duplicate pair with two parsed timestamps (for the dedup witness). -/
def c6wRowA : Row :=
  { email := some "dup@x.org", motivation := some "one", func := none, org := none,
    referee := none, lang := none, time := none, alumni := none, ts := some 1 }

/-- The later submission of `c6wRowA`'s applicant. -/
def c6wRowB : Row :=
  { email := some "dup@x.org", motivation := some "two", func := none, org := none,
    referee := none, lang := none, time := none, alumni := none, ts := some 2 }

/-- The two-row witness table. -/
def c6wRows : List Row := [c6wRowA, c6wRowB]

/-- Headers of a typical uploaded applications table. -/
def exCols : List String :=
  ["Timestamp", "Email", "Motivation", "Function / job title", "Organisation",
   "Referee", "Language level", "Weekly time commitment", "Alumni referral"]

/-! ### Helper lemmas -/

/-- The hexadecimal digest always has 64 characters. -/
theorem sha256hex_length (msg : List Nat) : (sha256hex msg).length = 64 := by
  simp [sha256hex, toHex8]

/-! ### Claim C2 -/

set_option maxRecDepth 100000 in
/-- C2: for every salt and email, `hash_id` is a deterministic pure function:
it is the SHA-256 digest of the UTF-8 concatenation of the salt and the
normalized email (trimmed, lowercased, missing becoming `""`), truncated to
the first 16 hexadecimal characters; identical normalized inputs give the
identical 16-character output, and the join utility's `pid_from_email`
computes the very same function.  The last conjunct checks the
implementation against the published SHA-256 value of the string `"abc"`. -/
theorem c2_hash_id_sha256_first16 :
    (∀ salt v : String, (hash_id salt v).length = 16)
    ∧ (∀ e : Option String, norm_email e = normalize_email e)
    ∧ (∀ (salt : String) (e : Option String),
        pid_from_email salt e = hash_id salt (normalize_email e))
    ∧ (∀ (salt : String) (a b : Option String), normalize_email a = normalize_email b →
        hash_id salt (normalize_email a) = hash_id salt (normalize_email b))
    ∧ hash_id "a" "bc" = "ba7816bf8f01cfea" := by
  refine ⟨fun salt v => ?_, fun e => ?_, fun salt e => ?_, fun salt a b h => by rw [h], ?_⟩
  · show ((sha256hex (utf8Bytes (salt ++ v))).take 16).length = 16
    rw [List.length_take, sha256hex_length]
    omega
  · cases e <;> rfl
  · cases e <;> rfl
  · decide

/-- Witness for C2: the determinism conjunct applied at a concrete pair of
distinct raw cells with the same normalized email. -/
theorem c2_hash_id_sha256_first16_witness :
    normalize_email (some " X ") = normalize_email (some "x")
    ∧ hash_id "pepper" (normalize_email (some " X "))
      = hash_id "pepper" (normalize_email (some "x")) :=
  ⟨by decide, c2_hash_id_sha256_first16.2.2.2.1 "pepper" (some " X ") (some "x") (by decide)⟩

/-! ### Claim C3 -/

/-- C3: the decision label is computed by the fixed ladder (priority
threshold, then admission threshold, then the equity carve-out for the
equity-eligible sector Farmer Org over the inclusive equity range, else
Reserve), mapping every value to exactly one of the four labels, and the
spec's example scenario holds with thresholds 50 and 65 and equity range
[40, 49]. -/
theorem c3_decision_ladder :
    (∀ (val a p : ℚ) (s : String) (er : Bool) (lo hi : ℚ),
      label_band val a p s er (lo, hi) = specDecision val a p s er "Farmer Org" lo hi)
    ∧ (∀ (val a p : ℚ) (s : String) (er : Bool) (r : ℚ × ℚ),
      label_band val a p s er r ∈ ["Priority", "Admit", "Reserve (Equity)", "Reserve"])
    ∧ label_band 45 50 65 "Farmer Org" true (40, 49) = "Reserve (Equity)"
    ∧ label_band 65 50 65 "Farmer Org" true (40, 49) = "Priority"
    ∧ label_band 50 50 65 "Farmer Org" true (40, 49) = "Admit"
    ∧ label_band 35 50 65 "Farmer Org" true (40, 49) = "Reserve" := by
  refine ⟨fun val a p s er lo hi => rfl, fun val a p s er r => ?_, ?_, ?_, ?_, ?_⟩
  · unfold label_band
    split_ifs <;> simp
  all_goals norm_num [label_band]

/-! ### Claim C8 -/

/-- C8: the sector classifier lowercases its input, classifies empty or
missing input as Other/Unclassified, tests the keyword sets in the fixed
order Education, NGO/CSO, Government, Multilateral, Private, Farmer Org,
Consultancy, Finance and returns the first category with a case-insensitive
substring match, falling through to Other/Unclassified; in particular
"Ministry of Agriculture" is Government and "ABC Farmers Cooperative" is
Farmer Org. -/
theorem c8_sector_classifier :
    (∀ o : Option String, org_to_sector o = specClassify o)
    ∧ (∀ o : Option String, org_to_sector o ∈ sectorTaxonomy)
    ∧ org_to_sector (some "Ministry of Agriculture") = "Government"
    ∧ org_to_sector (some "ABC Farmers Cooperative") = "Farmer Org"
    ∧ org_to_sector (some "") = "Other/Unclassified"
    ∧ org_to_sector none = "Other/Unclassified" := by
  refine ⟨fun o => ?_, fun o => ?_, by decide, by decide, by decide, rfl⟩
  · cases o <;> rfl
  · cases o with
    | none => simp [org_to_sector, sectorTaxonomy]
    | some s =>
      simp only [org_to_sector]
      split_ifs <;> simp [sectorTaxonomy]

/-! ### Rubric and scorer bound lemmas -/

/-- Missing, blank, or too-short texts get all-zero sub-scores. -/
theorem rubric_gate (text : String) (mw : Nat)
    (h : trimStr text = "" ∨ wordCount (trimStr text) < mw) :
    rubric_heuristic_score text mw = (0, 0, 0) := by
  unfold rubric_heuristic_score
  by_cases h1 : trimStr text = ""
  · rw [if_pos h1]
  · rcases h with h | h
    · exact absurd h h1
    · rw [if_neg h1, if_pos h]

/-- The rubric sub-scores total at most 30. -/
theorem rubric_sum_le (text : String) (mw : Nat) :
    (rubric_heuristic_score text mw).1 + (rubric_heuristic_score text mw).2.1
      + (rubric_heuristic_score text mw).2.2 ≤ 30 := by
  unfold rubric_heuristic_score
  split_ifs <;> simp

/-- A long-enough text gets every sub-score at least 5. -/
theorem rubric_ge_five (text : String) (mw : Nat) (h1 : trimStr text ≠ "")
    (h2 : mw ≤ wordCount (trimStr text)) :
    5 ≤ (rubric_heuristic_score text mw).1
    ∧ 5 ≤ (rubric_heuristic_score text mw).2.1
    ∧ 5 ≤ (rubric_heuristic_score text mw).2.2 := by
  unfold rubric_heuristic_score
  rw [if_neg h1, if_neg (by omega)]
  refine ⟨?_, ?_, ?_⟩ <;> dsimp only <;> split_ifs <;> omega

/-- The motivation score is within `[0, w_motivation]` (for a non-negative
weight). -/
theorem motivationPts_bounds (p : Preset) (hw : 0 ≤ p.w_motivation) (x : Option String) :
    0 ≤ motivationPts p x ∧ motivationPts p x ≤ p.w_motivation := by
  unfold motivationPts
  set r := rubric_heuristic_score (safe_text x) p.min_motivation_words with hr
  have hs : ((r.1 : ℚ) + r.2.1 + r.2.2) ≤ 30 := by
    have := rubric_sum_le (safe_text x) p.min_motivation_words
    rw [← hr] at this
    push_cast
    exact_mod_cast this
  have hs0 : (0 : ℚ) ≤ (r.1 : ℚ) + r.2.1 + r.2.2 := by positivity
  constructor
  · exact mul_nonneg (div_nonneg hs0 (by norm_num)) hw
  · calc ((r.1 : ℚ) + r.2.1 + r.2.2) / 30 * p.w_motivation
        ≤ 1 * p.w_motivation := by
          apply mul_le_mul_of_nonneg_right _ hw
          rw [div_le_one (by norm_num)]
          exact hs
      _ = p.w_motivation := one_mul _

/-- A long-enough text earns at least half of the motivation weight. -/
theorem motivationPts_half (p : Preset) (hw : 0 ≤ p.w_motivation) (t : String)
    (h1 : trimStr t ≠ "") (h2 : p.min_motivation_words ≤ wordCount (trimStr t)) :
    p.w_motivation / 2 ≤ motivationPts p (some t) := by
  unfold motivationPts
  have h5 := rubric_ge_five t p.min_motivation_words h1 h2
  set r := rubric_heuristic_score (safe_text (some t)) p.min_motivation_words with hr
  have h15 : (15 : ℚ) ≤ (r.1 : ℚ) + r.2.1 + r.2.2 := by
    have e : safe_text (some t) = t := rfl
    rw [e] at hr
    rw [hr]
    push_cast
    have := h5.1
    have := h5.2.1
    have := h5.2.2
    exact_mod_cast by omega
  have hhalf : (1 : ℚ) / 2 ≤ ((r.1 : ℚ) + r.2.1 + r.2.2) / 30 := by
    rw [div_le_div_iff (by norm_num) (by norm_num)]
    linarith
  calc p.w_motivation / 2 = 1 / 2 * p.w_motivation := by ring
    _ ≤ ((r.1 : ℚ) + r.2.1 + r.2.2) / 30 * p.w_motivation :=
        mul_le_mul_of_nonneg_right hhalf hw

/-- Bounds of the referee scorer. -/
theorem yes_no_points_bounds (x : Option String) (cap : ℚ) (hc : 0 ≤ cap) :
    0 ≤ yes_no_points x cap ∧ yes_no_points x cap ≤ cap := by
  cases x with
  | none => exact ⟨le_refl 0, hc⟩
  | some s =>
    simp only [yes_no_points]
    split_ifs
    · exact ⟨le_refl 0, hc⟩
    · exact ⟨hc, le_refl _⟩

/-- Bounds of the function scorer. -/
theorem function_points_bounds (p : Preset) (hw : 0 ≤ p.w_function) (x : Option String) :
    0 ≤ function_points p x ∧ function_points p x ≤ p.w_function := by
  simp only [function_points]
  split_ifs
  · exact ⟨le_refl 0, hw⟩
  · exact ⟨hw, le_refl _⟩
  · exact ⟨mul_nonneg hw (by norm_num), mul_le_of_le_one_right hw (by norm_num)⟩

/-- Bounds of the language scorer. -/
theorem language_points_bounds (p : Preset) (hw : 0 ≤ p.w_lang) (x : Option String) :
    0 ≤ language_points p x ∧ language_points p x ≤ p.w_lang := by
  cases x with
  | none => exact ⟨le_refl 0, hw⟩
  | some s =>
    simp only [language_points]
    split_ifs
    · exact ⟨hw, le_refl _⟩
    · exact ⟨mul_nonneg hw (by norm_num), mul_le_of_le_one_right hw (by norm_num)⟩
    · exact ⟨mul_nonneg hw (by norm_num), mul_le_of_le_one_right hw (by norm_num)⟩
    · exact ⟨le_refl 0, hw⟩

/-- Bounds of the time scorer (fixed band values, at most 10). -/
theorem time_points_bounds (x : Option String) :
    0 ≤ time_points x ∧ time_points x ≤ 10 := by
  cases x with
  | none => norm_num [time_points]
  | some s =>
    simp only [time_points]
    split_ifs <;> norm_num

/-- An element is at most the running maximum of its list. -/
theorem le_foldr_max (a : ℚ) (l : List ℚ) (h : a ∈ l) : a ≤ l.foldr max 0 := by
  induction l with
  | nil => cases h
  | cons b t ih =>
    rcases List.mem_cons.mp h with rfl | h2
    · exact le_max_left _ _
    · exact le_trans (ih h2) (le_max_right _ _)

/-- The running maximum with base 0 is non-negative. -/
theorem foldr_max_nonneg (l : List ℚ) : 0 ≤ l.foldr max 0 := by
  induction l with
  | nil => exact le_refl 0
  | cons b t ih => exact le_trans ih (le_max_right _ _)

/-- A sector-uplift lookup never exceeds the table's maximum value. -/
theorem lookupQ_le_max (tbl : List (String × ℚ)) (k : String) :
    lookupQ tbl k ≤ maxUplift tbl := by
  unfold lookupQ maxUplift
  cases hf : tbl.find? fun p => p.1 == k with
  | none => simpa [hf] using foldr_max_nonneg (tbl.map Prod.snd)
  | some q =>
    simp only [hf, Option.map_some', Option.getD_some]
    exact le_foldr_max _ _ (List.mem_map_of_mem Prod.snd (List.mem_of_find?_eq_some hf))

/-- A lookup in a table of non-negative values is non-negative. -/
theorem lookupQ_nonneg (tbl : List (String × ℚ)) (h : ∀ q ∈ tbl, 0 ≤ q.2) (k : String) :
    0 ≤ lookupQ tbl k := by
  unfold lookupQ
  cases hf : tbl.find? fun p => p.1 == k with
  | none => simp [hf]
  | some q =>
    simp only [hf, Option.map_some', Option.getD_some]
    exact h q (List.mem_of_find?_eq_some hf)

/-- Rounding to two decimals respects an integer upper bound. -/
theorem round2_le_int (q : ℚ) (n : ℤ) (h : q ≤ (n : ℚ)) : round2 q ≤ (n : ℚ) := by
  unfold round2
  have h1 : round (q * 100) ≤ round ((n : ℚ) * 100) := by
    rw [round_eq, round_eq]
    exact Int.floor_le_floor (by linarith)
  have h2 : round ((n : ℚ) * 100) = n * 100 := by
    rw [show ((n : ℚ) * 100) = ((n * 100 : ℤ) : ℚ) by push_cast; ring, round_intCast]
  rw [h2] at h1
  rw [div_le_iff₀ (by norm_num : (0 : ℚ) < 100)]
  exact_mod_cast h1

/-- The projections of a scored row, written through the named scorers. -/
theorem scoreRow_parts (salt : String) (p : Preset) (m : ColMap) (r : Row) :
    (scoreRow salt p m r).motivationPts = motivationPts p r.motivation
    ∧ (scoreRow salt p m r).functionPts = function_points p r.func
    ∧ (scoreRow salt p m r).refereePts
      = (if m.refMapped then yes_no_points r.referee p.w_referee else 0)
    ∧ (scoreRow salt p m r).sector
      = (if m.orgMapped then org_to_sector r.org else "Other/Unclassified")
    ∧ (scoreRow salt p m r).sectorPts = lookupQ p.sector_uplift (scoreRow salt p m r).sector
    ∧ (scoreRow salt p m r).languagePts
      = (if m.langMapped then language_points p r.lang else 0)
    ∧ (scoreRow salt p m r).timePts = (if m.timeMapped then time_points r.time else 0)
    ∧ (scoreRow salt p m r).rfs
      = round2 ((scoreRow salt p m r).motivationPts + (scoreRow salt p m r).functionPts
          + (scoreRow salt p m r).refereePts + (scoreRow salt p m r).sectorPts
          + (scoreRow salt p m r).languagePts + (scoreRow salt p m r).timePts) :=
  ⟨rfl, rfl, rfl, rfl, rfl, rfl, rfl, rfl⟩

/-- Bounds of an if-guarded scorer. -/
theorem ite_score_bounds (b : Bool) (v cap : ℚ) (h : 0 ≤ v ∧ v ≤ cap) (hc : 0 ≤ cap) :
    0 ≤ (if b then v else 0) ∧ (if b then v else 0) ≤ cap := by
  cases b <;> simp [h.1, h.2, hc]

/-! ### Claim C5 -/

/-- C5: for any motivation text and either preset's configured minimum word
count, a missing, empty, or too-short text yields (0,0,0) sub-scores and a
scaled motivation score of exactly zero regardless of content; otherwise the
scaled score equals (sum of the three sub-scores / 30) times the configured
motivation weight and lies within [0, weight]. -/
theorem c5_motivation_gate :
    ∀ p : Preset, p = finance_optimized ∨ p = balanced →
    ∀ x : Option String,
      ((x = none ∨ trimStr (safe_text x) = ""
          ∨ wordCount (trimStr (safe_text x)) < p.min_motivation_words) →
        rubric_heuristic_score (safe_text x) p.min_motivation_words = (0, 0, 0)
        ∧ motivationPts p x = 0)
      ∧ (¬(x = none ∨ trimStr (safe_text x) = ""
          ∨ wordCount (trimStr (safe_text x)) < p.min_motivation_words) →
        motivationPts p x
          = (((rubric_heuristic_score (safe_text x) p.min_motivation_words).1 : ℚ)
              + (rubric_heuristic_score (safe_text x) p.min_motivation_words).2.1
              + (rubric_heuristic_score (safe_text x) p.min_motivation_words).2.2) / 30
            * p.w_motivation
        ∧ 0 ≤ motivationPts p x ∧ motivationPts p x ≤ p.w_motivation) := by
  intro p hp x
  have hw : 0 ≤ p.w_motivation := by
    rcases hp with rfl | rfl <;> norm_num [finance_optimized, balanced]
  constructor
  · intro h
    have hz : rubric_heuristic_score (safe_text x) p.min_motivation_words = (0, 0, 0) := by
      apply rubric_gate
      rcases h with rfl | h | h
      · exact Or.inl rfl
      · exact Or.inl h
      · exact Or.inr h
    refine ⟨hz, ?_⟩
    unfold motivationPts
    rw [hz]
    norm_num
  · intro _
    exact ⟨rfl, motivationPts_bounds p hw x⟩

/-- Witness for C5: the zero branch at a missing motivation cell under the
finance-optimized preset. -/
theorem c5_motivation_gate_witness :
    ((finance_optimized = finance_optimized ∨ finance_optimized = balanced)
      ∧ ((none : Option String) = none
          ∨ trimStr (safe_text (none : Option String)) = ""
          ∨ wordCount (trimStr (safe_text (none : Option String)))
              < finance_optimized.min_motivation_words))
    ∧ rubric_heuristic_score (safe_text (none : Option String))
        finance_optimized.min_motivation_words = (0, 0, 0)
    ∧ motivationPts finance_optimized (none : Option String) = 0 :=
  ⟨⟨Or.inl rfl, Or.inl rfl⟩,
    (c5_motivation_gate finance_optimized (Or.inl rfl) none).1 (Or.inl rfl)⟩

/-! ### Claim C10 -/

/-- C10: for either preset, any motivation text whose word count reaches the
configured minimum gets every rubric sub-score at least 5, hence a scaled
motivation score of at least half the motivation weight, regardless of its
content. -/
theorem c10_motivation_floor :
    ∀ p : Preset, p = finance_optimized ∨ p = balanced →
    ∀ t : String, p.min_motivation_words ≤ wordCount (trimStr t) →
      (5 ≤ (rubric_heuristic_score t p.min_motivation_words).1
        ∧ 5 ≤ (rubric_heuristic_score t p.min_motivation_words).2.1
        ∧ 5 ≤ (rubric_heuristic_score t p.min_motivation_words).2.2)
      ∧ p.w_motivation / 2 ≤ motivationPts p (some t) := by
  intro p hp t h
  have hw : 0 ≤ p.w_motivation := by
    rcases hp with rfl | rfl <;> norm_num [finance_optimized, balanced]
  have hmin : 1 ≤ p.min_motivation_words := by
    rcases hp with rfl | rfl <;> norm_num [finance_optimized, balanced]
  have ht : trimStr t ≠ "" := by
    intro he
    rw [he] at h
    have h0 : wordCount "" = 0 := rfl
    omega
  exact ⟨rubric_ge_five t p.min_motivation_words ht h, motivationPts_half p hw t ht h⟩

/-- Witness for C10: a 30-one-letter-word text under the finance-optimized
preset. -/
theorem c10_motivation_floor_witness :
    ((finance_optimized = finance_optimized ∨ finance_optimized = balanced)
      ∧ finance_optimized.min_motivation_words ≤ wordCount (trimStr exMotText))
    ∧ (5 ≤ (rubric_heuristic_score exMotText finance_optimized.min_motivation_words).1
        ∧ 5 ≤ (rubric_heuristic_score exMotText finance_optimized.min_motivation_words).2.1
        ∧ 5 ≤ (rubric_heuristic_score exMotText finance_optimized.min_motivation_words).2.2)
    ∧ finance_optimized.w_motivation / 2 ≤ motivationPts finance_optimized (some exMotText) :=
  ⟨⟨Or.inl rfl, by decide⟩,
    (c10_motivation_floor finance_optimized (Or.inl rfl) exMotText (by decide)).1,
    (c10_motivation_floor finance_optimized (Or.inl rfl) exMotText (by decide)).2⟩

/-! ### Claim C4 -/

/-- C4 counterexample: under the finance-optimized preset, a row whose
organisation classifies to Finance receives a sector score of 8, strictly
above the configured sector weight of 5 — so "each individual field score is
bounded above by its respective configured weight" is false as stated. -/
theorem c4_sector_exceeds_weight :
    org_to_sector (some "XYZ Bank") = "Finance"
    ∧ (scoreRow "s" finance_optimized allMapped c4Row).sectorPts = 8
    ∧ finance_optimized.w_sector = 5
    ∧ ¬((scoreRow "s" finance_optimized allMapped c4Row).sectorPts
        ≤ finance_optimized.w_sector) := by
  refine ⟨by decide, by decide, by decide, by decide⟩

/-- C4 (amended): for either preset, every field score is non-negative;
Motivation, Function, Referee, Language and Time scores are bounded by their
configured weights; the Sector score is bounded by the largest value of the
preset's sector-uplift table (8 resp. 10, which can exceed `w_sector`);
every unmapped optional column contributes exactly zero; and the rounded
RFS never exceeds the sum of all configured weights. -/
theorem c4_field_score_bounds :
    ∀ (salt : String) (p : Preset), p = finance_optimized ∨ p = balanced →
    ∀ (m : ColMap) (r : Row),
      (0 ≤ (scoreRow salt p m r).motivationPts
        ∧ (scoreRow salt p m r).motivationPts ≤ p.w_motivation)
      ∧ (0 ≤ (scoreRow salt p m r).functionPts
        ∧ (scoreRow salt p m r).functionPts ≤ p.w_function)
      ∧ (0 ≤ (scoreRow salt p m r).refereePts
        ∧ (scoreRow salt p m r).refereePts ≤ p.w_referee)
      ∧ (0 ≤ (scoreRow salt p m r).languagePts
        ∧ (scoreRow salt p m r).languagePts ≤ p.w_lang)
      ∧ (0 ≤ (scoreRow salt p m r).timePts ∧ (scoreRow salt p m r).timePts ≤ p.w_time)
      ∧ (0 ≤ (scoreRow salt p m r).sectorPts
        ∧ (scoreRow salt p m r).sectorPts ≤ maxUplift p.sector_uplift)
      ∧ (m.refMapped = false → (scoreRow salt p m r).refereePts = 0)
      ∧ (m.orgMapped = false → (scoreRow salt p m r).sectorPts = 0)
      ∧ (m.langMapped = false → (scoreRow salt p m r).languagePts = 0)
      ∧ (m.timeMapped = false → (scoreRow salt p m r).timePts = 0)
      ∧ maxUplift finance_optimized.sector_uplift = 8
      ∧ maxUplift balanced.sector_uplift = 10
      ∧ (scoreRow salt p m r).rfs
          ≤ p.w_motivation + p.w_sector + p.w_referee + p.w_function + p.w_time + p.w_lang
            + p.w_alumni := by
  intro salt p hp m r
  obtain ⟨e1, e2, e3, e4, e5, e6, e7, e8⟩ := scoreRow_parts salt p m r
  have hw1 : 0 ≤ p.w_motivation := by
    rcases hp with rfl | rfl <;> norm_num [finance_optimized, balanced]
  have hw2 : 0 ≤ p.w_function := by
    rcases hp with rfl | rfl <;> norm_num [finance_optimized, balanced]
  have hw3 : 0 ≤ p.w_referee := by
    rcases hp with rfl | rfl <;> norm_num [finance_optimized, balanced]
  have hw4 : 0 ≤ p.w_lang := by
    rcases hp with rfl | rfl <;> norm_num [finance_optimized, balanced]
  have hup : ∀ q ∈ p.sector_uplift, 0 ≤ q.2 := by
    rcases hp with rfl | rfl <;> decide
  have hmot := motivationPts_bounds p hw1 r.motivation
  have hfn := function_points_bounds p hw2 r.func
  have href := ite_score_bounds m.refMapped (yes_no_points r.referee p.w_referee) p.w_referee
    (yes_no_points_bounds r.referee p.w_referee hw3) hw3
  have hlang := ite_score_bounds m.langMapped (language_points p r.lang) p.w_lang
    (language_points_bounds p hw4 r.lang) hw4
  have htim : 0 ≤ (scoreRow salt p m r).timePts ∧ (scoreRow salt p m r).timePts ≤ 10 := by
    rw [e7]
    exact ite_score_bounds m.timeMapped (time_points r.time) 10
      (time_points_bounds r.time) (by norm_num)
  have hsec : 0 ≤ (scoreRow salt p m r).sectorPts
      ∧ (scoreRow salt p m r).sectorPts ≤ maxUplift p.sector_uplift := by
    rw [e5]
    exact ⟨lookupQ_nonneg p.sector_uplift hup _, lookupQ_le_max p.sector_uplift _⟩
  have htimw : (scoreRow salt p m r).timePts ≤ p.w_time := by
    rcases hp with rfl | rfl <;>
      simpa [finance_optimized, balanced] using htim.2
  refine ⟨by rw [e1]; exact hmot, by rw [e2]; exact hfn, by rw [e3]; exact href,
    by rw [e6]; exact hlang, ⟨htim.1, htimw⟩, hsec, ?_, ?_, ?_, ?_, by decide, by decide, ?_⟩
  · intro h
    rw [e3, h]
    rfl
  · intro h
    have hs : (scoreRow salt p m r).sector = "Other/Unclassified" := by rw [e4, h]; rfl
    rw [e5, hs]
    rcases hp with rfl | rfl <;> decide
  · intro h
    rw [e6, h]
    rfl
  · intro h
    rw [e7, h]
    rfl
  · rw [e8]
    rcases hp with rfl | rfl
    · have b1 : (scoreRow salt finance_optimized m r).motivationPts ≤ 15 := by
        rw [e1]
        simpa [finance_optimized] using hmot.2
      have b2 : (scoreRow salt finance_optimized m r).functionPts ≤ 25 := by
        rw [e2]
        simpa [finance_optimized] using hfn.2
      have b3 : (scoreRow salt finance_optimized m r).refereePts ≤ 28 := by
        rw [e3]
        simpa [finance_optimized] using href.2
      have b4 : (scoreRow salt finance_optimized m r).languagePts ≤ 15 := by
        rw [e6]
        simpa [finance_optimized] using hlang.2
      have b5 : (scoreRow salt finance_optimized m r).timePts ≤ 10 := htim.2
      have b6 : (scoreRow salt finance_optimized m r).sectorPts ≤ 8 := by
        have hmax : maxUplift finance_optimized.sector_uplift = 8 := by decide
        rw [← hmax]
        exact hsec.2
      have hb := round2_le_int
        ((scoreRow salt finance_optimized m r).motivationPts
          + (scoreRow salt finance_optimized m r).functionPts
          + (scoreRow salt finance_optimized m r).refereePts
          + (scoreRow salt finance_optimized m r).sectorPts
          + (scoreRow salt finance_optimized m r).languagePts
          + (scoreRow salt finance_optimized m r).timePts) 103 (by push_cast; linarith)
      have hsum : ((103 : ℤ) : ℚ)
          = finance_optimized.w_motivation + finance_optimized.w_sector
            + finance_optimized.w_referee + finance_optimized.w_function
            + finance_optimized.w_time + finance_optimized.w_lang
            + finance_optimized.w_alumni := by
        norm_num [finance_optimized]
      rw [← hsum]
      exact hb
    · have b1 : (scoreRow salt balanced m r).motivationPts ≤ 25 := by
        rw [e1]
        simpa [balanced] using hmot.2
      have b2 : (scoreRow salt balanced m r).functionPts ≤ 15 := by
        rw [e2]
        simpa [balanced] using hfn.2
      have b3 : (scoreRow salt balanced m r).refereePts ≤ 28 := by
        rw [e3]
        simpa [balanced] using href.2
      have b4 : (scoreRow salt balanced m r).languagePts ≤ 20 := by
        rw [e6]
        simpa [balanced] using hlang.2
      have b5 : (scoreRow salt balanced m r).timePts ≤ 10 := htim.2
      have b6 : (scoreRow salt balanced m r).sectorPts ≤ 10 := by
        have hmax : maxUplift balanced.sector_uplift = 10 := by decide
        rw [← hmax]
        exact hsec.2
      have hb := round2_le_int
        ((scoreRow salt balanced m r).motivationPts
          + (scoreRow salt balanced m r).functionPts
          + (scoreRow salt balanced m r).refereePts
          + (scoreRow salt balanced m r).sectorPts
          + (scoreRow salt balanced m r).languagePts
          + (scoreRow salt balanced m r).timePts) 113 (by push_cast; linarith)
      have hsum : ((113 : ℤ) : ℚ)
          = balanced.w_motivation + balanced.w_sector + balanced.w_referee
            + balanced.w_function + balanced.w_time + balanced.w_lang
            + balanced.w_alumni := by
        norm_num [balanced]
      rw [← hsum]
      exact hb

/-- Witness for C4: the motivation-score bound of a fully mapped concrete
row under the finance-optimized preset. -/
theorem c4_field_score_bounds_witness :
    (finance_optimized = finance_optimized ∨ finance_optimized = balanced)
    ∧ (0 ≤ (scoreRow "s" finance_optimized allMapped c4Row).motivationPts
      ∧ (scoreRow "s" finance_optimized allMapped c4Row).motivationPts
        ≤ finance_optimized.w_motivation) :=
  ⟨Or.inl rfl, (c4_field_score_bounds "s" finance_optimized (Or.inl rfl) allMapped c4Row).1⟩

/-! ### Claim C1 -/

/-- C1 (supporting computation for the code bug): the on-screen table shows
the `Email_Norm` column, and the downloadable CSV frame keeps every original
column — including the raw `Email` column — next to `Email_Norm`; on a
concrete one-row table the scored output still carries the raw email
`" A@B.com "` and its normalized form `"a@b.com"`. -/
theorem c1_raw_email_in_output :
    "Email_Norm" ∈ displayedColumns
    ∧ "Email" ∈ outputColumns exCols
    ∧ "Email_Norm" ∈ outputColumns exCols
    ∧ scoreTable "s" finance_optimized allMapped [c1Row]
      = Except.ok [scoreRow "s" finance_optimized allMapped c1Row]
    ∧ (scoreRow "s" finance_optimized allMapped c1Row).raw.email = some " A@B.com "
    ∧ (scoreRow "s" finance_optimized allMapped c1Row).emailNorm = "a@b.com" := by
  refine ⟨by decide, by decide, by decide, rfl, rfl, by decide⟩

/-! ### Claim C9 -/

/-- C9 counterexample: on a typical uploaded header set, the output frame
has no `AlumniPts` column (the mapped alumni column and `w_alumni` are never
used) and no column named `Decision` (the decision column is named
`predicted Decision`). -/
theorem c9_missing_columns :
    ¬("AlumniPts" ∈ outputColumns exCols) ∧ ¬("Decision" ∈ outputColumns exCols) := by
  exact ⟨by decide, by decide⟩

/-- C9 (amended): for every input header set, the output table contains at
minimum the columns PID, Sector, RFS, the decision column named
`predicted Decision`, the normalized email column `Email_Norm`, and one
numeric column per computed scoring field: MotivationPts, SectorPts,
RefereePts, FunctionPts, TimePts and LanguagePts (no `AlumniPts` column is
produced). -/
theorem c9_output_columns :
    ∀ cols : List String,
      "PID" ∈ outputColumns cols ∧ "Sector" ∈ outputColumns cols
      ∧ "RFS" ∈ outputColumns cols ∧ "predicted Decision" ∈ outputColumns cols
      ∧ "MotivationPts" ∈ outputColumns cols ∧ "SectorPts" ∈ outputColumns cols
      ∧ "RefereePts" ∈ outputColumns cols ∧ "FunctionPts" ∈ outputColumns cols
      ∧ "TimePts" ∈ outputColumns cols ∧ "LanguagePts" ∈ outputColumns cols
      ∧ "Email_Norm" ∈ outputColumns cols := by
  intro cols
  simp [outputColumns]

/-! ### Claim C7 -/

/-- C7 (supporting computation for the code bug): the join utility
recomputes each raw row's PID with the same salt and normalization as the
scoring run, but its required-column check fails on the scoring run's own
output, because the app's decision column is named `predicted Decision`
while the join script demands `Decision` — so the join aborts instead of
matching every PID. -/
theorem c7_join_rejects_scored_output :
    (∀ (salt : String) (e : Option String),
      pid_from_email salt e = hash_id salt (normalize_email e))
    ∧ missingScoredCols (outputColumns exCols) = ["Decision"]
    ∧ joinGate (outputColumns exCols) = Except.error "rfs_scored.csv is missing columns" := by
  refine ⟨fun salt e => ?_, by decide, rfl⟩
  cases e <;> rfl

/-! ### Deduplication machinery -/

/-- The sort-key comparison is reflexive. -/
theorem rowOrd_refl (r : Row) : rowOrd r r := by
  unfold rowOrd
  cases r.ts <;> simp [tsLe]

instance : IsTotal Row rowOrd :=
  ⟨fun a b => by
    unfold rowOrd
    rcases a.ts with _ | x <;> rcases b.ts with _ | y <;> simp [tsLe] <;> omega⟩

instance : IsTrans Row rowOrd :=
  ⟨fun a b c hab hbc => by
    unfold rowOrd at *
    revert hab hbc
    rcases a.ts with _ | x <;> rcases b.ts with _ | y <;> rcases c.ts with _ | z <;>
      simp [tsLe] <;> omega⟩

/-- Members of `keepFirstBy` come from the input and have unseen keys. -/
theorem keepFirstBy_mem {α β : Type} [DecidableEq β] (key : α → β) :
    ∀ (seen : List β) (l : List α) (a : α),
      a ∈ keepFirstBy key seen l → a ∈ l ∧ key a ∉ seen := by
  intro seen l
  induction l generalizing seen with
  | nil => intro a h; cases h
  | cons b t ih =>
    intro a h
    simp only [keepFirstBy] at h
    split_ifs at h with hb
    · obtain ⟨h1, h2⟩ := ih seen a h
      exact ⟨List.mem_cons_of_mem _ h1, h2⟩
    · rcases List.mem_cons.mp h with rfl | h2
      · exact ⟨List.mem_cons_self _ _, hb⟩
      · obtain ⟨h1, h3⟩ := ih _ a h2
        exact ⟨List.mem_cons_of_mem _ h1, fun hc => h3 (List.mem_cons_of_mem _ hc)⟩

/-- `keepFirstBy` emits pairwise-distinct keys. -/
theorem keepFirstBy_nodup_keys {α β : Type} [DecidableEq β] (key : α → β) :
    ∀ (seen : List β) (l : List α),
      (keepFirstBy key seen l).Pairwise (fun a b => key a ≠ key b) := by
  intro seen l
  induction l generalizing seen with
  | nil => exact List.Pairwise.nil
  | cons b t ih =>
    simp only [keepFirstBy]
    split_ifs with hb
    · exact ih seen
    · refine List.Pairwise.cons ?_ (ih _)
      intro a ha hc
      exact (keepFirstBy_mem key _ t a ha).2 (hc ▸ List.mem_cons_self _ _)

/-- In a descending-sorted list, a record kept by `keepFirstBy` dominates
every record of the list that has its key. -/
theorem keepFirstBy_max (key : Row → String) :
    ∀ (seen : List String) (l : List Row), l.Pairwise (fun a b => rowOrd b a) →
      ∀ r ∈ keepFirstBy key seen l, ∀ r1 ∈ l, key r1 = key r → rowOrd r1 r := by
  intro seen l
  induction l generalizing seen with
  | nil => intro _ r hr; cases hr
  | cons b t ih =>
    intro hp r hr r1 hr1 hk
    rcases List.pairwise_cons.mp hp with ⟨hhead, htail⟩
    simp only [keepFirstBy] at hr
    split_ifs at hr with hb
    · rcases List.mem_cons.mp hr1 with rfl | h1
      · exact absurd (hk ▸ hb) (keepFirstBy_mem key seen t r hr).2
      · exact ih seen htail r hr r1 h1 hk
    · rcases List.mem_cons.mp hr with rfl | h2
      · rcases List.mem_cons.mp hr1 with rfl | h1
        · exact rowOrd_refl r1
        · exact hhead r1 h1
      · rcases List.mem_cons.mp hr1 with rfl | h1
        · exact absurd (hk ▸ List.mem_cons_self _ _) (keepFirstBy_mem key _ t r h2).2
        · exact ih _ htail r h2 r1 h1 hk

/-- `drop_duplicates(keep="last")` only keeps input rows. -/
theorem dropDupLastBy_subset {α β : Type} [DecidableEq β] (key : α → β) (l : List α)
    (r : α) (h : r ∈ dropDupLastBy key l) : r ∈ l := by
  unfold dropDupLastBy at h
  rw [List.mem_reverse] at h
  exact List.mem_reverse.mp (keepFirstBy_mem key [] l.reverse r h).1

/-- `drop_duplicates(keep="last")` keeps at most one row per key. -/
theorem dropDupLastBy_unique_keys {α β : Type} [DecidableEq β] (key : α → β) (l : List α) :
    ∀ r1 ∈ dropDupLastBy key l, ∀ r2 ∈ dropDupLastBy key l, key r1 = key r2 → r1 = r2 := by
  intro r1 h1 r2 h2 hk
  by_contra hne
  have hpw : (dropDupLastBy key l).Pairwise (fun a b => key a ≠ key b) := by
    unfold dropDupLastBy
    rw [List.pairwise_reverse]
    exact (keepFirstBy_nodup_keys key [] l.reverse).imp fun h => Ne.symm h
  have hsym : Symmetric (fun a b : α => key a ≠ key b) := fun a b h hc => h hc.symm
  exact hpw.forall hsym h1 h2 hne hk

/-- After an ascending sort, the kept row per key dominates its whole key
group. -/
theorem dropDupLastBy_max (key : Row → String) (l : List Row) (hs : l.Pairwise rowOrd) :
    ∀ r ∈ dropDupLastBy key l, ∀ r1 ∈ l, key r1 = key r → rowOrd r1 r := by
  intro r hr r1 hr1 hk
  unfold dropDupLastBy at hr
  rw [List.mem_reverse] at hr
  have hrev : l.reverse.Pairwise (fun a b => rowOrd b a) := by
    rw [List.pairwise_reverse]
    exact hs
  exact keepFirstBy_max key [] l.reverse hrev r hr r1 (List.mem_reverse.mpr hr1) hk

/-- The deduplicated rows all come from the input. -/
theorem dedupe_subset (m : ColMap) (l : List Row) : ∀ r ∈ dedupe m l, r ∈ l := by
  intro r hr
  unfold dedupe at hr
  split_ifs at hr
  · exact (List.perm_insertionSort rowOrd l).subset
      (dropDupLastBy_subset emailKey _ r hr)
  · exact dropDupLastBy_subset emailKey l r hr

/-- Deduplication keeps at most one row per normalized email. -/
theorem dedupe_unique_emails (m : ColMap) (l : List Row) :
    ∀ r1 ∈ dedupe m l, ∀ r2 ∈ dedupe m l, emailKey r1 = emailKey r2 → r1 = r2 := by
  intro r1 h1 r2 h2 hk
  unfold dedupe at h1 h2
  split_ifs at h1 h2
  · exact dropDupLastBy_unique_keys emailKey _ r1 h1 r2 h2 hk
  · exact dropDupLastBy_unique_keys emailKey l r1 h1 r2 h2 hk

/-- With a timestamp column, the kept row per normalized email is maximal in
the sort order (`NaT` above every parsed timestamp). -/
theorem dedupe_keeps_latest (m : ColMap) (hts : m.hasTsCol = true) (l : List Row) :
    ∀ r ∈ dedupe m l, ∀ r1 ∈ l, emailKey r1 = emailKey r → tsLe r1.ts r.ts = true := by
  intro r hr r1 hr1 hk
  have hr2 : r ∈ dropDupLastBy emailKey (List.insertionSort rowOrd l) := by
    simpa [dedupe, hts] using hr
  have hsorted : (List.insertionSort rowOrd l).Pairwise rowOrd :=
    List.sorted_insertionSort rowOrd l
  exact dropDupLastBy_max emailKey _ hsorted r hr2 r1
    ((List.perm_insertionSort rowOrd l).mem_iff.mpr hr1) hk

/-! ### Claim C6 -/

/-- C6 counterexample: with two submissions of the same email — the first
with an unparseable timestamp (`NaT`), the second with a parsed one — the
sort places the `NaT` row last (pandas `na_position="last"`), not first, and
`keep="last"` then keeps the `NaT` row rather than the chronologically
latest record. -/
theorem c6_nat_kept_over_latest :
    List.insertionSort rowOrd c6Rows = [c6RowB, c6RowA]
    ∧ dedupe allMappedTs c6Rows = [c6RowA]
    ∧ c6RowA.ts = none
    ∧ c6RowB.ts = some 18262
    ∧ c6RowB ∈ c6Rows
    ∧ emailKey c6RowB = emailKey c6RowA := by
  refine ⟨by decide, by decide, rfl, rfl, by decide, by decide⟩

/-- C6 (amended): provided the salted hash is collision-free on the input's
normalized emails, deduplication leaves at most one record per PID; and when
a timestamp column is present the kept record per identity is maximal in the
sort order that places unparseable timestamps above all parsed ones — in
particular, among duplicates whose timestamps all parse, the chronologically
latest record is kept. -/
theorem c6_dedupe_unique_and_latest :
    ∀ (salt : String) (m : ColMap) (rows : List Row),
      (∀ r1 ∈ rows, ∀ r2 ∈ rows,
        hash_id salt (normalize_email r1.email) = hash_id salt (normalize_email r2.email) →
        normalize_email r1.email = normalize_email r2.email) →
      (∀ r1 ∈ dedupe m rows, ∀ r2 ∈ dedupe m rows,
        hash_id salt (normalize_email r1.email) = hash_id salt (normalize_email r2.email) →
        r1 = r2)
      ∧ (m.hasTsCol = true →
        ∀ r ∈ dedupe m rows, ∀ r1 ∈ rows,
          normalize_email r1.email = normalize_email r.email → tsLe r1.ts r.ts = true) := by
  intro salt m rows hinj
  constructor
  · intro r1 h1 r2 h2 hpid
    exact dedupe_unique_emails m rows r1 h1 r2 h2
      (hinj r1 (dedupe_subset m rows r1 h1) r2 (dedupe_subset m rows r2 h2) hpid)
  · intro hts r hr r1 hr1 hk
    exact dedupe_keeps_latest m hts rows r hr r1 hr1 hk

/-- Witness for C6: a two-row duplicate table with parsed timestamps 1 and
2; the collision-freeness hypothesis holds because both rows carry the same
email. -/
theorem c6_dedupe_unique_and_latest_witness :
    (∀ r1 ∈ c6wRows, ∀ r2 ∈ c6wRows,
      hash_id "s" (normalize_email r1.email) = hash_id "s" (normalize_email r2.email) →
      normalize_email r1.email = normalize_email r2.email)
    ∧ ((∀ r1 ∈ dedupe allMappedTs c6wRows, ∀ r2 ∈ dedupe allMappedTs c6wRows,
        hash_id "s" (normalize_email r1.email) = hash_id "s" (normalize_email r2.email) →
        r1 = r2)
      ∧ (allMappedTs.hasTsCol = true →
        ∀ r ∈ dedupe allMappedTs c6wRows, ∀ r1 ∈ c6wRows,
          normalize_email r1.email = normalize_email r.email → tsLe r1.ts r.ts = true)) := by
  have hinj : ∀ r1 ∈ c6wRows, ∀ r2 ∈ c6wRows,
      hash_id "s" (normalize_email r1.email) = hash_id "s" (normalize_email r2.email) →
      normalize_email r1.email = normalize_email r2.email := by
    intro r1 h1 r2 h2 _
    have e1 : r1 = c6wRowA ∨ r1 = c6wRowB := by simpa [c6wRows] using h1
    have e2 : r2 = c6wRowA ∨ r2 = c6wRowB := by simpa [c6wRows] using h2
    rcases e1 with rfl | rfl <;> rcases e2 with rfl | rfl <;> rfl
  exact ⟨hinj, c6_dedupe_unique_and_latest "s" allMappedTs c6wRows hinj⟩

end RFS
